import Mathlib

/-!
Shallow embedding of the unreal-plugin-pkg build orchestrator
(`src/installs.ts`, `src/settings.ts`, `src/plugin.ts`, `src/cli.ts`,
`src/zip.ts`), covering version-spec parsing, installation matching,
platform gating, cleanup policy and the orchestration sequence of `main`.

JavaScript `number` values that can be `NaN` or `undefined` are embedded as
the inductive `JSVal`; concrete engine versions read from `Build.version`
metadata are embedded with `Nat` fields (the data model's version components
are non-negative integers).  Strings are processed on their character lists
so that every definition evaluates by kernel reduction.
-/

/-- A JavaScript numeric value as it occurs in the version logic: a real
number (here always an integer), `NaN`, or `undefined`. -/
inductive JSVal : Type where
  | undef : JSVal
  | nan : JSVal
  | num : Int → JSVal
deriving DecidableEq

/-- JavaScript strict equality `===` restricted to `JSVal`:
`NaN === x` is always `false` (even for `x = NaN`), `undefined === undefined`
is `true`, and numbers compare by value. -/
def jsEq : JSVal → JSVal → Bool
  | JSVal.num a, JSVal.num b => a == b
  | JSVal.undef, JSVal.undef => true
  | _, _ => false

/-- JavaScript `<` on `JSVal`: `undefined` coerces to `NaN`, and every
comparison involving `NaN` is `false`; numbers compare by value. -/
def jsLt : JSVal → JSVal → Bool
  | JSVal.num a, JSVal.num b => a < b
  | _, _ => false

/-- `UnrealVersionInformation` from `src/installs.ts`: the concrete version
triple read from an installation's `Build.version` file.  The components are
non-negative integers, embedded as `Nat`. -/
structure UnrealVersionInformation : Type where
  MajorVersion : Nat
  MinorVersion : Nat
  PatchVersion : Nat
deriving DecidableEq

/-- `UnrealInstallation` from `src/installs.ts`. -/
structure UnrealInstallation : Type where
  Version : UnrealVersionInformation
  RootPath : String
  BatchFilesPath : String
deriving DecidableEq

/-- `UnrealPlatform` from `src/installs.ts`. -/
inductive UnrealPlatform : Type where
  | Win64 : UnrealPlatform
  | IOS : UnrealPlatform
  | Android : UnrealPlatform
  | Mac : UnrealPlatform
  | Linux : UnrealPlatform
deriving DecidableEq

/-- `Partial<UnrealVersionInformation>` as produced by `ParseVersionNumber`
in `src/installs.ts`: each field is a JavaScript value that may be a number,
`NaN` (from a failed `parseInt`) or `undefined` (popped off an empty list). -/
structure PartialUnrealVersionInformation : Type where
  MajorVersion : JSVal
  MinorVersion : JSVal
  PatchVersion : JSVal
deriving DecidableEq

/-- The host operating system, i.e. the value of `process.platform`. -/
inductive Host : Type where
  | win32 : Host
  | darwin : Host
  | linux : Host
  | other : Host
deriving DecidableEq

/-- JavaScript `String.prototype.trim` on a character list. -/
def jsTrim (cs : List Char) : List Char :=
  ((cs.dropWhile Char.isWhitespace).reverse.dropWhile Char.isWhitespace).reverse

/-- JavaScript `String.prototype.split('.')` on a character list: splitting
an empty string yields one empty token, never zero tokens. -/
def splitOnDot : List Char → List (List Char)
  | [] => [[]]
  | c :: cs =>
    match splitOnDot cs with
    | [] => [[c]]
    | t :: ts => if c = '.' then [] :: t :: ts else (c :: t) :: ts

/-- The longest leading run of decimal digits, as a number; `none` when there
is no leading digit. -/
def parseDigitsNat (cs : List Char) : Option Nat :=
  let ds := cs.takeWhile Char.isDigit
  if ds.isEmpty then none
  else some (ds.foldl (fun a c => a * 10 + (c.toNat - 48)) 0)

/-- JavaScript `parseInt` (decimal): skip leading whitespace, read an
optional sign and then the longest run of digits, ignoring any trailing
characters; `NaN` when no digits are found.  (The rarely relevant `0x` radix
prefix of `parseInt` is not modelled.) -/
def jsParseInt (cs : List Char) : JSVal :=
  let s := cs.dropWhile Char.isWhitespace
  match s with
  | '+' :: rest =>
    match parseDigitsNat rest with
    | some n => JSVal.num n
    | none => JSVal.nan
  | '-' :: rest =>
    match parseDigitsNat rest with
    | some n => JSVal.num (-(n : Int))
    | none => JSVal.nan
  | _ =>
    match parseDigitsNat s with
    | some n => JSVal.num n
    | none => JSVal.nan

/-- JavaScript `Array.prototype.pop`: the last element (or `undefined` when
the array is empty) together with the remaining array. -/
def jsPop (l : List JSVal) : JSVal × List JSVal :=
  (match l.getLast? with
   | some v => v
   | none => JSVal.undef,
   l.dropLast)

/-- `ParseVersionNumber` from `src/installs.ts`: trim, split on dots, map
`parseInt`, reverse, validate (note the source checks `n === NaN`, which is
always `false` in JavaScript), then pop major, minor, patch in order. -/
def ParseVersionNumber (version : String) :
    Except String PartialUnrealVersionInformation :=
  let numbers := ((splitOnDot (jsTrim version.toList)).map jsParseInt).reverse
  if numbers.length > 3 || numbers.length == 0 ||
      numbers.any (fun n => jsEq n JSVal.nan) then
    Except.error ("Invalid version format: " ++ version)
  else
    let p1 := jsPop numbers
    let p2 := jsPop p1.2
    let p3 := jsPop p2.2
    Except.ok ⟨p1.1, p2.1, p3.1⟩

/-- `IsMatch` from `src/installs.ts`, with JavaScript `===` embedded as
`jsEq`. -/
def IsMatch (installed : UnrealVersionInformation)
    (needed : PartialUnrealVersionInformation) : Bool :=
  jsEq (JSVal.num installed.MajorVersion) needed.MajorVersion &&
  (jsEq (JSVal.num installed.MinorVersion) needed.MinorVersion ||
    jsEq needed.MinorVersion JSVal.undef) &&
  (jsEq (JSVal.num installed.PatchVersion) needed.PatchVersion ||
    jsEq needed.PatchVersion JSVal.undef)

/-- `IsGreaterThanOrEqual` from `src/installs.ts`, transcribed with its early
returns as nested conditionals.  The final comparison is the source's own
`needed.PatchVersion < needed.PatchVersion` (a self-comparison). -/
def IsGreaterThanOrEqual (installed : UnrealVersionInformation)
    (needed : PartialUnrealVersionInformation) : Bool :=
  if jsEq needed.MajorVersion JSVal.undef then true
  else if jsLt (JSVal.num installed.MajorVersion) needed.MajorVersion then false
  else if jsEq (JSVal.num installed.MajorVersion) needed.MajorVersion then
    if jsEq needed.MinorVersion JSVal.undef then true
    else if jsLt (JSVal.num installed.MinorVersion) needed.MinorVersion then false
    else if jsEq (JSVal.num installed.MinorVersion) needed.MinorVersion then
      if jsEq needed.PatchVersion JSVal.undef then true
      else if jsLt needed.PatchVersion needed.PatchVersion then false
      else true
    else true
  else true

/-- `CompareVersion` from `src/installs.ts`: a three-level comparator
returning the first nonzero component difference. -/
def CompareVersion (a b : UnrealVersionInformation) : Int :=
  if a.MajorVersion ≠ b.MajorVersion then
    (a.MajorVersion : Int) - b.MajorVersion
  else if a.MinorVersion ≠ b.MinorVersion then
    (a.MinorVersion : Int) - b.MinorVersion
  else (a.PatchVersion : Int) - b.PatchVersion

/-- The order relation induced on installations by sorting with the
comparator `(a, b) => CompareVersion(a.Version, b.Version)`. -/
def CmpLE (a b : UnrealInstallation) : Prop :=
  CompareVersion a.Version b.Version ≤ 0

instance : DecidableRel CmpLE := fun _ _ => Int.decLe _ _

/-- `GetMatchingUnrealInstallation` from `src/installs.ts`: parse the
requested version (propagating its exception), filter the installations to
those matching, and if any remain, sort the filtered copy ascending with the
stable `Array.prototype.sort` (embedded as the stable `List.insertionSort`)
and pop the last element. -/
def GetMatchingUnrealInstallation (installs : List UnrealInstallation)
    (version : String) : Except String (Option UnrealInstallation) :=
  match ParseVersionNumber version with
  | Except.error e => Except.error e
  | Except.ok requestedVersion =>
    let matchingInstalls :=
      installs.filter (fun install => IsMatch install.Version requestedVersion)
    if matchingInstalls.length == 0 then Except.ok none
    else Except.ok (List.insertionSort CmpLE matchingInstalls).getLast?

/-- `GetRunUATBatch` from `src/installs.ts`, with `process.platform` made an
explicit parameter and `path.join` rendered as POSIX-style joining. -/
def GetRunUATBatch (host : Host) (install : UnrealInstallation) :
    Except String String :=
  match host with
  | Host.win32 => Except.ok (install.BatchFilesPath ++ "/" ++ "RunUAT.bat")
  | Host.linux => Except.ok (install.BatchFilesPath ++ "/" ++ "RunUAT.sh")
  | Host.darwin => Except.ok (install.BatchFilesPath ++ "/" ++ "RunUAT.sh")
  | Host.other => Except.error "Unknown platform. Expecting Windows, MacOSX, or Linux."

/-- `IsPlatformSupported` from `src/installs.ts`, with `process.platform`
made an explicit parameter. -/
def IsPlatformSupported (host : Host) (install : UnrealInstallation)
    (platform : UnrealPlatform) : Bool :=
  match host with
  | Host.win32 =>
    platform == UnrealPlatform.Win64 ||
      (platform == UnrealPlatform.Android &&
        IsGreaterThanOrEqual install.Version
          ⟨JSVal.num 4, JSVal.num 25, JSVal.undef⟩)
  | Host.darwin => platform == UnrealPlatform.Mac || platform == UnrealPlatform.IOS
  | Host.linux => platform == UnrealPlatform.Linux
  | Host.other => false

/-- The concrete `(major, minor, patch)` triple of a version. -/
def vtriple (v : UnrealVersionInformation) : Nat × Nat × Nat :=
  (v.MajorVersion, v.MinorVersion, v.PatchVersion)

/-- Specification-side lexicographic order on version triples (§3 of the
spec: total order by `(major, minor, patch)` lexicographically).  Used to
state the claims; to be compared against the source comparators. -/
def SpecLexLe (a b : Nat × Nat × Nat) : Prop :=
  a.1 < b.1 ∨ (a.1 = b.1 ∧ (a.2.1 < b.2.1 ∨ (a.2.1 = b.2.1 ∧ a.2.2 ≤ b.2.2)))

instance (a b : Nat × Nat × Nat) : Decidable (SpecLexLe a b) := by
  unfold SpecLexLe; infer_instance

/-- Specification-side matching predicate (§4.3 of the spec): an
installation matches a spec iff the major components are equal, the minor is
absent or equal, and the patch is absent or equal.  Used to state claim C3;
to be compared against the source `IsMatch`. -/
def SpecMatches (installed : UnrealVersionInformation)
    (spec : PartialUnrealVersionInformation) : Prop :=
  spec.MajorVersion = JSVal.num installed.MajorVersion ∧
  (spec.MinorVersion = JSVal.undef ∨
    spec.MinorVersion = JSVal.num installed.MinorVersion) ∧
  (spec.PatchVersion = JSVal.undef ∨
    spec.PatchVersion = JSVal.num installed.PatchVersion)

instance (v : UnrealVersionInformation) (s : PartialUnrealVersionInformation) :
    Decidable (SpecMatches v s) := by
  unfold SpecMatches; infer_instance

/-- Whether a `JSVal` is an actual number. -/
def JSVal.isNumeric : JSVal → Bool
  | JSVal.num _ => true
  | _ => false

/-- A well-formed parsed version spec: the major component is a number and
the minor and patch components are each a number or absent (never `NaN`). -/
def WellFormedSpec (s : PartialUnrealVersionInformation) : Bool :=
  s.MajorVersion.isNumeric &&
  (s.MinorVersion.isNumeric || s.MinorVersion == JSVal.undef) &&
  (s.PatchVersion.isNumeric || s.PatchVersion == JSVal.undef)

/-- `BuildSettings` from `src/settings.ts`. -/
structure BuildSettings : Type where
  UnrealEnginePaths : List String
  VersionsToInstall : List String
  PluginPath : String
  OutputPath : String
  Platforms : List UnrealPlatform
  CleanBinaryFiles : Bool
  CleanIntermediateFiles : Bool
  ZipPackages : Bool
deriving DecidableEq

/-- `UnrealPlugin` from `src/plugin.ts`. -/
structure UnrealPlugin : Type where
  FriendlyName : String
deriving DecidableEq

/-- POSIX-style `path.join` of a directory and one relative component. -/
def pathJoin (a b : String) : String := a ++ "/" ++ b

/-- Whether `q` lies in the subtree rooted at `root` (it is `root` itself or
a path strictly below it). -/
def isUnder (root q : String) : Bool :=
  q == root || (root ++ "/").toList.isPrefixOf q.toList

/-- The external `rimraf` collaborator at its interface boundary: remove the
target subtree from the file system (a set of paths); removing an absent
path is a no-op, never an error. -/
def rimrafModel (fs : List String) (target : String) : List String :=
  fs.filter (fun q => !(isUnder target q))

/-- `cleanDirectory` from `src/cli.ts`: remove `Intermediate` when either
cleanup flag is set, then remove `Binaries` when `CleanBinaryFiles` is set. -/
def cleanDirectory (fs : List String) (dir : String) (options : BuildSettings) :
    List String :=
  let fs1 :=
    if options.CleanIntermediateFiles || options.CleanBinaryFiles then
      rimrafModel fs (pathJoin dir "Intermediate")
    else fs
  if options.CleanBinaryFiles then rimrafModel fs1 (pathJoin dir "Binaries")
  else fs1

/-- The mutable process-wide state touched by `main`: the working
directory. -/
structure ProcState : Type where
  cwd : String
deriving DecidableEq

/-- Lines 72-83 of `src/cli.ts`: save the working directory, `chdir` into
the build tool's directory, run the tool (`execSync` throws on nonzero
exit), and `chdir` back — the restore is only on the success path; on
failure the exception propagates with the working directory still changed. -/
def buildStep (st : ProcState) (uatDir : String) (cmd : String)
    (execOk : Bool) : Except (String × ProcState) ProcState :=
  let saved := st.cwd
  let st1 : ProcState := ⟨uatDir⟩
  if execOk then Except.ok ⟨saved⟩
  else Except.error ("Command failed: " ++ cmd, st1)

/-- Observable side effects of one run of `main`, in order. -/
inductive BuildEvent : Type where
  | descriptorLoad : String → BuildEvent
  | invokedBuildTool : String → String → BuildEvent
  | cleanedDirectory : String → BuildEvent
  | scheduledArchive : String → BuildEvent
deriving DecidableEq

/-- The resolution loop of `main` (`src/cli.ts` lines 34-41): resolve every
requested version in order, aborting with the fatal error at the first
version that fails to resolve. -/
def resolveVersions (installs : List UnrealInstallation) :
    List String → Except String (List UnrealInstallation)
  | [] => Except.ok []
  | v :: vs =>
    match GetMatchingUnrealInstallation installs v with
    | Except.error e => Except.error e
    | Except.ok none =>
      Except.error ("Failed to find Unreal installation for version " ++ v)
    | Except.ok (some install) =>
      match resolveVersions installs vs with
      | Except.error e => Except.error e
      | Except.ok rest => Except.ok (install :: rest)

/-- `path.dirname`: everything before the last separator. -/
def pathDirname (p : String) : String :=
  let cs := p.toList
  if cs.contains '/' then
    String.mk (((cs.reverse.dropWhile (fun c => c ≠ '/')).drop 1).reverse)
  else "."

/-- `path.basename`: everything after the last separator. -/
def pathBasename (p : String) : String :=
  String.mk ((p.toList.reverse.takeWhile (fun c => c ≠ '/')).reverse)

/-- `path.resolve(root, name)` restricted to relative joining. -/
def pathResolve (a b : String) : String := a ++ "/" ++ b

/-- `UnrealVersionString` from `src/installs.ts`. -/
def UnrealVersionString (version : UnrealVersionInformation) : String :=
  toString version.MajorVersion ++ "." ++ toString version.MinorVersion ++
    "." ++ toString version.PatchVersion

/-- `.replace(/\./g, '_')` on a string. -/
def replaceDots (s : String) : String :=
  String.mk (s.toList.map (fun c => if c = '.' then '_' else c))

/-- The display name of a platform. -/
def platformName : UnrealPlatform → String
  | UnrealPlatform.Win64 => "Win64"
  | UnrealPlatform.IOS => "IOS"
  | UnrealPlatform.Android => "Android"
  | UnrealPlatform.Mac => "Mac"
  | UnrealPlatform.Linux => "Linux"

/-- The command line assembled by `main` (`src/cli.ts` lines 59-78). -/
def buildCmd (host : Host) (uatPath pluginPath outputDirectory : String)
    (platforms : List UnrealPlatform) : String :=
  let args :=
    ["BuildPlugin",
     "-Plugin=\"" ++ pluginPath ++ "\"",
     "-TargetPlatforms=" ++ String.intercalate "+" (platforms.map platformName),
     "-Package=\"" ++ outputDirectory ++ "\"",
     "-Rocket",
     "-StrictIncludes"] ++
    (if host = Host.win32 then ["-VS2019"] else [])
  (if host = Host.win32 then "" else "./") ++ pathBasename uatPath ++ " " ++
    String.intercalate " " args

/-- The per-installation build loop of `main` (`src/cli.ts` lines 47-89):
filter platforms, resolve the UAT script, compute the output directory, run
the build tool with the working directory temporarily changed, then clean
and optionally schedule archiving.  Returns the outcome, the emitted events
and the final process state. -/
def runBuilds (host : Host) (options : BuildSettings) (plugin : UnrealPlugin)
    (pluginPath : String) (execOk : String → Bool) :
    List UnrealInstallation → ProcState →
    Except String Unit × List BuildEvent × ProcState
  | [], st => (Except.ok (), [], st)
  | install :: rest, st =>
    match GetRunUATBatch host install with
    | Except.error e => (Except.error e, [], st)
    | Except.ok uatPath =>
      let supportedPlatforms :=
        options.Platforms.filter (fun p => IsPlatformSupported host install p)
      let outputDirectory :=
        pathResolve options.OutputPath
          (plugin.FriendlyName ++ "_" ++
            replaceDots (UnrealVersionString install.Version))
      let cmd :=
        buildCmd host uatPath pluginPath outputDirectory supportedPlatforms
      match buildStep st (pathDirname uatPath) cmd (execOk cmd) with
      | Except.error es =>
        (Except.error es.1, [BuildEvent.invokedBuildTool (pathDirname uatPath) cmd],
          es.2)
      | Except.ok st2 =>
        let evts :=
          [BuildEvent.invokedBuildTool (pathDirname uatPath) cmd,
           BuildEvent.cleanedDirectory outputDirectory] ++
          (if options.ZipPackages then
            [BuildEvent.scheduledArchive outputDirectory]
          else [])
        let res := runBuilds host options plugin pluginPath execOk rest st2
        (res.1, evts ++ res.2.1, res.2.2)

/-- `main` from `src/cli.ts`, with the externally-determined inputs made
explicit: the scan result, the plugin-descriptor load result, and the
outcome of each external build-tool invocation. -/
def mainModel (host : Host) (options : BuildSettings)
    (installs : List UnrealInstallation)
    (pluginResult : Except String (String × UnrealPlugin))
    (execOk : String → Bool) (initialCwd : String) :
    Except String Unit × List BuildEvent × ProcState :=
  match resolveVersions installs options.VersionsToInstall with
  | Except.error e => (Except.error e, [], ⟨initialCwd⟩)
  | Except.ok installsToUse =>
    match pluginResult with
    | Except.error e =>
      (Except.error e, [BuildEvent.descriptorLoad options.PluginPath],
        ⟨initialCwd⟩)
    | Except.ok pp =>
      let res :=
        runBuilds host options pp.2 pp.1 execOk installsToUse ⟨initialCwd⟩
      (res.1, BuildEvent.descriptorLoad options.PluginPath :: res.2.1,
        res.2.2)

/-- A heap of JavaScript arrays of installations: array identity is a `Nat`
id, so that in-place mutation (`sort`, `pop`) is distinguishable from copy
(`filter`). -/
structure ArrayStore : Type where
  arrays : Nat → List UnrealInstallation
  next : Nat

/-- Allocate a fresh array (as `Array.prototype.filter` does). -/
def allocArray (σ : ArrayStore) (l : List UnrealInstallation) :
    Nat × ArrayStore :=
  (σ.next,
   ⟨fun i => if i = σ.next then l else σ.arrays i, σ.next + 1⟩)

/-- Overwrite an existing array in place (as `sort` and `pop` do). -/
def writeArray (σ : ArrayStore) (id : Nat) (l : List UnrealInstallation) :
    ArrayStore :=
  ⟨fun i => if i = id then l else σ.arrays i, σ.next⟩

/-- `GetMatchingUnrealInstallation` with array mutation made explicit:
`filter` allocates a fresh array, and both the in-place `sort` and the `pop`
act on that fresh array, never on the input array `installsRef`. -/
def GetMatchingUnrealInstallationRef (σ : ArrayStore) (installsRef : Nat)
    (version : String) :
    Except String (Option UnrealInstallation) × ArrayStore :=
  match ParseVersionNumber version with
  | Except.error e => (Except.error e, σ)
  | Except.ok requestedVersion =>
    let alloc :=
      allocArray σ
        ((σ.arrays installsRef).filter
          (fun install => IsMatch install.Version requestedVersion))
    let matchingRef := alloc.1
    let σ1 := alloc.2
    if (σ1.arrays matchingRef).length == 0 then (Except.ok none, σ1)
    else
      let σ2 :=
        writeArray σ1 matchingRef
          (List.insertionSort CmpLE (σ1.arrays matchingRef))
      let popped := (σ2.arrays matchingRef).getLast?
      let σ3 := writeArray σ2 matchingRef (σ2.arrays matchingRef).dropLast
      (Except.ok popped, σ3)

/-- The installed set used by the spec's worked examples:
`{4.25.0, 4.26.0, 4.26.2, 5.0.0}`. -/
def exampleInstalls : List UnrealInstallation :=
  [⟨⟨4, 25, 0⟩, "E/UE_4.25", "E/UE_4.25/Engine/Build/BatchFiles"⟩,
   ⟨⟨4, 26, 0⟩, "E/UE_4.26", "E/UE_4.26/Engine/Build/BatchFiles"⟩,
   ⟨⟨4, 26, 2⟩, "E/UE_4.26.2", "E/UE_4.26.2/Engine/Build/BatchFiles"⟩,
   ⟨⟨5, 0, 0⟩, "E/UE_5.0", "E/UE_5.0/Engine/Build/BatchFiles"⟩]

/-- The `4.26.2` installation of the worked example set. -/
def exampleBest : UnrealInstallation :=
  ⟨⟨4, 26, 2⟩, "E/UE_4.26.2", "E/UE_4.26.2/Engine/Build/BatchFiles"⟩

/-- A `4.24.0` installation, used for the platform-gating examples. -/
def install424 : UnrealInstallation :=
  ⟨⟨4, 24, 0⟩, "E/UE_4.24", "E/UE_4.24/Engine/Build/BatchFiles"⟩

/-- A `4.25.0` installation, used for the platform-gating examples. -/
def install425 : UnrealInstallation :=
  ⟨⟨4, 25, 0⟩, "E/UE_4.25", "E/UE_4.25/Engine/Build/BatchFiles"⟩

/-- Two distinct installation records carrying the identical version triple
`4.26.2`, used for the duplicate-triple tie-break claim. -/
def dupFirst : UnrealInstallation :=
  ⟨⟨4, 26, 2⟩, "E/CopyA", "E/CopyA/Engine/Build/BatchFiles"⟩

/-- The second record with the identical triple `4.26.2`. -/
def dupSecond : UnrealInstallation :=
  ⟨⟨4, 26, 2⟩, "E/CopyB", "E/CopyB/Engine/Build/BatchFiles"⟩

/-- Whether a token string parses (via `parseInt`) as a non-negative
integer. -/
def parsesAsNonNegInt (t : List Char) : Bool :=
  match jsParseInt t with
  | JSVal.num v => decide (0 ≤ v)
  | _ => false

instance : IsTotal UnrealInstallation CmpLE :=
  ⟨by intro a b; unfold CmpLE CompareVersion; split_ifs <;> omega⟩

instance : IsTrans UnrealInstallation CmpLE :=
  ⟨by intro a b c; unfold CmpLE CompareVersion; split_ifs <;> omega⟩

/-- The settings of the spec's fail-fast example: requested versions
`["4.26", "9"]`. -/
def failFastSettings : BuildSettings :=
  ⟨["E"], ["4.26", "9"], ".", "Packages", [UnrealPlatform.Win64],
    false, true, true⟩

/-- The starting array heap of the C10 witness: one array, holding the
example installation list. -/
def exampleStore : ArrayStore := ⟨fun _ => exampleInstalls, 1⟩

theorem parsesAsNonNegInt_spec (t : List Char)
    (h : parsesAsNonNegInt t = true) :
    ∃ k : Nat, jsParseInt t = JSVal.num (k : Int) := by
  unfold parsesAsNonNegInt at h
  cases hc : jsParseInt t with
  | num v =>
    rw [hc] at h
    simp only [decide_eq_true_eq] at h
    exact ⟨v.toNat, by rw [Int.toNat_of_nonneg h]⟩
  | undef => rw [hc] at h; cases h
  | nan => rw [hc] at h; cases h

theorem cmpLE_iff (a b : UnrealInstallation) :
    CmpLE a b ↔ SpecLexLe (vtriple a.Version) (vtriple b.Version) := by
  unfold CmpLE CompareVersion SpecLexLe vtriple
  dsimp only
  split_ifs <;> omega

theorem specLexLe_refl (t : Nat × Nat × Nat) : SpecLexLe t t := by
  unfold SpecLexLe; omega

theorem isMatch_iff_specMatches (v : UnrealVersionInformation)
    (s : PartialUnrealVersionInformation) (hwf : WellFormedSpec s = true) :
    (IsMatch v s = true) ↔ SpecMatches v s := by
  obtain ⟨ma, mi, pa⟩ := s
  cases ma <;> cases mi <;> cases pa <;>
    simp only [WellFormedSpec, JSVal.isNumeric, Bool.and_eq_true, Bool.or_eq_true,
      beq_iff_eq, reduceCtorEq, and_false, false_and, and_true, true_and,
      or_false, false_or, or_true, true_or] at hwf <;>
    simp [IsMatch, jsEq, SpecMatches, JSVal.num.injEq] <;> omega

theorem filter_orderedInsert_pos {α : Type} (r : α → α → Prop) [DecidableRel r]
    (p : α → Bool) (x : α) (hx : p x = true)
    (h : ∀ y, p y = true → r x y) :
    ∀ l : List α, (List.orderedInsert r x l).filter p = x :: l.filter p
  | [] => by simp [hx]
  | b :: l => by
    by_cases hb : r x b
    · simp [List.orderedInsert, if_pos hb, List.filter_cons, hx]
    · have hpb : p b = false := by
        cases hpb : p b
        · rfl
        · exact absurd (h b hpb) hb
      simp [List.orderedInsert, if_neg hb, List.filter_cons, hpb,
        filter_orderedInsert_pos r p x hx h l]

theorem filter_orderedInsert_neg {α : Type} (r : α → α → Prop) [DecidableRel r]
    (p : α → Bool) (x : α) (hx : p x = false) :
    ∀ l : List α, (List.orderedInsert r x l).filter p = l.filter p
  | [] => by simp [hx]
  | b :: l => by
    by_cases hb : r x b
    · simp [List.orderedInsert, if_pos hb, List.filter_cons, hx]
    · simp [List.orderedInsert, if_neg hb, List.filter_cons,
        filter_orderedInsert_neg r p x hx l]

theorem filter_insertionSort {α : Type} (r : α → α → Prop) [DecidableRel r]
    (p : α → Bool) (h : ∀ x y, p x = true → p y = true → r x y) :
    ∀ l : List α, (List.insertionSort r l).filter p = l.filter p
  | [] => rfl
  | b :: l => by
    cases hb : p b
    · rw [List.insertionSort, filter_orderedInsert_neg r p b hb,
        filter_insertionSort r p h l]
      simp [List.filter_cons, hb]
    · rw [List.insertionSort,
        filter_orderedInsert_pos r p b hb (fun y hy => h b y hb hy),
        filter_insertionSort r p h l]
      simp [List.filter_cons, hb]

theorem pairwise_getLast_max {α : Type} (r : α → α → Prop) :
    ∀ (l : List α) (m : α), l.Pairwise r → l.getLast? = some m →
      ∀ a ∈ l, a = m ∨ r a m
  | [], m => by simp
  | [x], m => by
    intro _ hl a ha
    simp only [List.getLast?_singleton, Option.some.injEq] at hl
    simp only [List.mem_singleton] at ha
    subst hl; subst ha; exact Or.inl rfl
  | x :: y :: ys, m => by
    intro hp hl a ha
    have hl2 : (y :: ys).getLast? = some m := by
      rw [← List.getLast?_cons_cons]; exact hl
    rcases List.mem_cons.mp ha with rfl | ha2
    · exact Or.inr ((List.pairwise_cons.mp hp).1 m
        (List.mem_of_getLast?_eq_some hl2))
    · exact pairwise_getLast_max r (y :: ys) m (List.pairwise_cons.mp hp).2
        hl2 a ha2

theorem getLast?_filter {α : Type} (p : α → Bool) :
    ∀ (l : List α) (m : α), l.getLast? = some m → p m = true →
      (l.filter p).getLast? = some m
  | [], m => by simp
  | [x], m => by
    intro h hp
    simp only [List.getLast?_singleton, Option.some.injEq] at h
    subst h
    simp [List.filter, hp]
  | x :: y :: ys, m => by
    intro h hp
    have h2 : (y :: ys).getLast? = some m := by
      rw [← List.getLast?_cons_cons]; exact h
    have ih := getLast?_filter p (y :: ys) m h2 hp
    cases hx : p x with
    | false =>
      rw [List.filter_cons_of_neg (by simp [hx])]
      exact ih
    | true =>
      rw [List.filter_cons_of_pos hx]
      cases hfl : (y :: ys).filter p with
      | nil => rw [hfl] at ih; cases ih
      | cons z zs =>
        rw [List.getLast?_cons_cons]
        rw [hfl] at ih
        exact ih

theorem getMatching_eq (installs : List UnrealInstallation) (version : String)
    (spec : PartialUnrealVersionInformation)
    (hp : ParseVersionNumber version = Except.ok spec) :
    GetMatchingUnrealInstallation installs version =
      (if (installs.filter (fun i => IsMatch i.Version spec)).length == 0 then
        Except.ok none
      else
        Except.ok (List.insertionSort CmpLE
          (installs.filter (fun i => IsMatch i.Version spec))).getLast?) := by
  unfold GetMatchingUnrealInstallation
  rw [hp]

/-- C1: the claim that `ParseVersionNumber` rejects `""` and `"4.x"` fails on
the code: the validation test `n === NaN` is always false in JavaScript, so
only the token-count check fires.  `""` and `"4.x"` are accepted (producing
`NaN` components) while `"1.2.3.4"` is rejected. -/
theorem C1_parse_validation_code_bug :
    ParseVersionNumber "4.x" =
      Except.ok ⟨JSVal.num 4, JSVal.nan, JSVal.undef⟩ ∧
    ParseVersionNumber "" =
      Except.ok ⟨JSVal.nan, JSVal.undef, JSVal.undef⟩ ∧
    ParseVersionNumber "1.2.3.4" =
      Except.error "Invalid version format: 1.2.3.4" :=
  ⟨rfl, rfl, rfl⟩

/-- C2: the claim that `IsGreaterThanOrEqual` decides the lexicographic
comparison fails on the code: the patch-level test compares
`needed.PatchVersion` against itself, so installed `1.2.3` is reported `≥`
required `1.2.5` although `(1,2,3)` is lexicographically below `(1,2,5)`. -/
theorem C2_ge_comparator_code_bug :
    IsGreaterThanOrEqual ⟨1, 2, 3⟩
      ⟨JSVal.num 1, JSVal.num 2, JSVal.num 5⟩ = true ∧
    ¬ SpecLexLe (1, 2, 5) (1, 2, 3) := by
  constructor
  · rfl
  · unfold SpecLexLe; dsimp only; omega

/-- C4: the claim that the working directory is restored on every exit path
of a build step fails on the code: `buildStep` (lines 72-83 of
`src/cli.ts`) restores the saved directory only on the success path; when
the build tool fails, the error propagates with the working directory still
set to the build tool's directory. -/
theorem C4_cwd_restore_code_bug :
    (buildStep ⟨"/work"⟩ "E/UE_4.26/Engine/Build/BatchFiles" "RunUAT.bat" false =
      Except.error ("Command failed: RunUAT.bat",
        ⟨"E/UE_4.26/Engine/Build/BatchFiles"⟩) ∧
      ("E/UE_4.26/Engine/Build/BatchFiles" : String) ≠ "/work") ∧
    (∀ (st : ProcState) (uatDir cmd : String),
      buildStep st uatDir cmd true = Except.ok st) := by
  refine ⟨⟨rfl, by decide⟩, fun st uatDir cmd => rfl⟩

/-- C3: with a successfully parsed, well-formed version spec,
`GetMatchingUnrealInstallation` returns `null` exactly when no installation
matches (major equal; minor equal or absent; patch equal or absent), and
otherwise returns a matching installation whose `(major, minor, patch)`
triple is the lexicographic maximum among all matching installations. -/
theorem C3_matcher_returns_best (installs : List UnrealInstallation)
    (version : String) (spec : PartialUnrealVersionInformation)
    (hp : ParseVersionNumber version = Except.ok spec)
    (hwf : WellFormedSpec spec = true) :
    (GetMatchingUnrealInstallation installs version = Except.ok none ↔
      ∀ i ∈ installs, ¬ SpecMatches i.Version spec) ∧
    (∀ r, GetMatchingUnrealInstallation installs version =
        Except.ok (some r) →
      r ∈ installs ∧ SpecMatches r.Version spec ∧
      ∀ i ∈ installs, SpecMatches i.Version spec →
        SpecLexLe (vtriple i.Version) (vtriple r.Version)) ∧
    (∃ o, GetMatchingUnrealInstallation installs version = Except.ok o) := by
  have hmatch : ∀ i : UnrealInstallation,
      (IsMatch i.Version spec = true) ↔ SpecMatches i.Version spec :=
    fun i => isMatch_iff_specMatches i.Version spec hwf
  have hG := getMatching_eq installs version spec hp
  by_cases h0 : (installs.filter (fun i => IsMatch i.Version spec)).length == 0
  · rw [if_pos h0] at hG
    have hnil : installs.filter (fun i => IsMatch i.Version spec) = [] :=
      List.length_eq_zero.mp (by simpa using h0)
    refine ⟨iff_of_true hG ?_, ?_, ⟨none, hG⟩⟩
    · intro i hi hm
      have hmem : i ∈ installs.filter (fun i => IsMatch i.Version spec) :=
        List.mem_filter.mpr ⟨hi, (hmatch i).mpr hm⟩
      rw [hnil] at hmem
      cases hmem
    · intro r hr
      rw [hG] at hr
      simp at hr
  · rw [if_neg h0] at hG
    have hne : installs.filter (fun i => IsMatch i.Version spec) ≠ [] := by
      intro hnil
      rw [hnil] at h0
      simp at h0
    have hsne : List.insertionSort CmpLE
        (installs.filter (fun i => IsMatch i.Version spec)) ≠ [] := by
      intro hnil
      have hperm := List.perm_insertionSort CmpLE
        (installs.filter (fun i => IsMatch i.Version spec))
      rw [hnil] at hperm
      exact hne hperm.nil_eq.symm
    obtain ⟨m, hm⟩ : ∃ m, (List.insertionSort CmpLE
        (installs.filter (fun i => IsMatch i.Version spec))).getLast? =
          some m := by
      cases hl : (List.insertionSort CmpLE
          (installs.filter (fun i => IsMatch i.Version spec))).getLast? with
      | none => exact absurd (List.getLast?_eq_none_iff.mp hl) hsne
      | some m => exact ⟨m, rfl⟩
    rw [hm] at hG
    have hmem : m ∈ installs.filter (fun i => IsMatch i.Version spec) :=
      (List.mem_insertionSort CmpLE).mp (List.mem_of_getLast?_eq_some hm)
    have hmem2 := List.mem_filter.mp hmem
    refine ⟨iff_of_false (by rw [hG]; simp) ?_, ?_, ⟨some m, hG⟩⟩
    · intro hall
      exact (hall m hmem2.1) ((hmatch m).mp (by simpa using hmem2.2))
    · intro r hr
      rw [hG] at hr
      simp only [Except.ok.injEq, Option.some.injEq] at hr
      subst hr
      refine ⟨hmem2.1, (hmatch m).mp (by simpa using hmem2.2), ?_⟩
      intro i hi hsm
      have hin : i ∈ installs.filter (fun i => IsMatch i.Version spec) :=
        List.mem_filter.mpr ⟨hi, (hmatch i).mpr hsm⟩
      have hin2 : i ∈ List.insertionSort CmpLE
          (installs.filter (fun i => IsMatch i.Version spec)) :=
        (List.mem_insertionSort CmpLE).mpr hin
      have hpw := List.sorted_insertionSort CmpLE
        (installs.filter (fun i => IsMatch i.Version spec))
      rcases pairwise_getLast_max CmpLE _ m hpw hm i hin2 with rfl | hle
      · exact specLexLe_refl _
      · exact (cmpLE_iff i m).mp hle

/-- C3 witness: over the installed set `{4.25.0, 4.26.0, 4.26.2, 5.0.0}`,
spec `"4.26"` resolves to `4.26.2`, spec `"4"` resolves to `4.26.2`, and
spec `"6"` gives no match. -/
theorem C3_matcher_returns_best_witness :
    GetMatchingUnrealInstallation exampleInstalls "4.26" =
      Except.ok (some exampleBest) ∧
    GetMatchingUnrealInstallation exampleInstalls "4" =
      Except.ok (some exampleBest) ∧
    GetMatchingUnrealInstallation exampleInstalls "6" = Except.ok none := by
  refine ⟨rfl, rfl, ?_⟩
  exact (C3_matcher_returns_best exampleInstalls "6"
    ⟨JSVal.num 6, JSVal.undef, JSVal.undef⟩ rfl rfl).1.mpr (by decide)

/-- C7 counterexample: with two distinct installation records carrying the
identical best triple `4.26.2`, `GetMatchingUnrealInstallation` returns the
second (last) one in list order, not the first, because the stable ascending
sort keeps tied records in list order and `pop` takes the last. -/
theorem C7_first_wins_counterexample :
    GetMatchingUnrealInstallation [dupFirst, dupSecond] "4.26" =
      Except.ok (some dupSecond) ∧ dupSecond ≠ dupFirst := by
  exact ⟨rfl, by decide⟩

/-- C7 (amended): when several installations share the version triple of the
returned best match, `GetMatchingUnrealInstallation` returns the last such
installation in list order. -/
theorem C7_last_duplicate_wins (installs : List UnrealInstallation)
    (version : String) (spec : PartialUnrealVersionInformation)
    (r : UnrealInstallation)
    (hp : ParseVersionNumber version = Except.ok spec)
    (hr : GetMatchingUnrealInstallation installs version =
      Except.ok (some r)) :
    (installs.filter (fun i => IsMatch i.Version spec &&
      (i.Version == r.Version))).getLast? = some r := by
  have hG := getMatching_eq installs version spec hp
  by_cases h0 : (installs.filter (fun i => IsMatch i.Version spec)).length == 0
  · rw [if_pos h0] at hG
    rw [hG] at hr
    simp at hr
  · rw [if_neg h0] at hG
    rw [hG] at hr
    simp only [Except.ok.injEq] at hr
    have hclass : ∀ x y : UnrealInstallation,
        (x.Version == r.Version) = true → (y.Version == r.Version) = true →
        CmpLE x y := by
      intro x y hx hy
      rw [beq_iff_eq] at hx hy
      unfold CmpLE CompareVersion
      rw [hx, hy]
      simp
    have hst := filter_insertionSort CmpLE
      (fun i => i.Version == r.Version) hclass
      (installs.filter (fun i => IsMatch i.Version spec))
    have hpr : (r.Version == r.Version) = true := by simp
    have hgl := getLast?_filter (fun i => i.Version == r.Version) _ r hr hpr
    rw [hst, List.filter_filter] at hgl
    have hcomm : installs.filter (fun i => IsMatch i.Version spec &&
        (i.Version == r.Version)) =
      installs.filter (fun a => (a.Version == r.Version) &&
        IsMatch a.Version spec) :=
      List.filter_congr (fun a _ => Bool.and_comm _ _)
    rw [hcomm]
    exact hgl

/-- C7 witness: applying the amended tie-break statement at the concrete
duplicated pair shows the second record is the last matching one. -/
theorem C7_last_duplicate_wins_witness :
    ([dupFirst, dupSecond].filter (fun i =>
      IsMatch i.Version ⟨JSVal.num 4, JSVal.num 26, JSVal.undef⟩ &&
      (i.Version == dupSecond.Version))).getLast? = some dupSecond :=
  C7_last_duplicate_wins [dupFirst, dupSecond] "4.26"
    ⟨JSVal.num 4, JSVal.num 26, JSVal.undef⟩ dupSecond rfl rfl

theorem resolveVersions_fails (installs : List UnrealInstallation) :
    ∀ (vs : List String) (v : String), v ∈ vs →
      (GetMatchingUnrealInstallation installs v = Except.ok none ∨
        ∃ e, GetMatchingUnrealInstallation installs v = Except.error e) →
      ∃ e, resolveVersions installs vs = Except.error e
  | [], v => by simp
  | w :: vs, v => by
    intro hv hfail
    rcases List.mem_cons.mp hv with rfl | hv2
    · cases hG : GetMatchingUnrealInstallation installs v with
      | error e => exact ⟨e, by simp [resolveVersions, hG]⟩
      | ok o =>
        cases o with
        | none =>
          exact ⟨"Failed to find Unreal installation for version " ++ v,
            by simp [resolveVersions, hG]⟩
        | some i =>
          rcases hfail with hf | ⟨e, hf⟩ <;> rw [hG] at hf <;> cases hf
    · cases hG : GetMatchingUnrealInstallation installs w with
      | error e => exact ⟨e, by simp [resolveVersions, hG]⟩
      | ok o =>
        cases o with
        | none =>
          exact ⟨"Failed to find Unreal installation for version " ++ w,
            by simp [resolveVersions, hG]⟩
        | some i =>
          obtain ⟨e, he⟩ := resolveVersions_fails installs vs v hv2 hfail
          exact ⟨e, by simp [resolveVersions, hG, he]⟩

/-- C5: if any requested version fails to resolve, `main` aborts with a
fatal error and no observable side effect occurs: the plugin descriptor is
not loaded, and no build-tool invocation, cleanup or archive task happens,
regardless of whether other requested versions would have resolved. -/
theorem C5_fail_fast (host : Host) (options : BuildSettings)
    (installs : List UnrealInstallation)
    (pluginResult : Except String (String × UnrealPlugin))
    (execOk : String → Bool) (initialCwd : String) (v : String)
    (hv : v ∈ options.VersionsToInstall)
    (hfail : GetMatchingUnrealInstallation installs v = Except.ok none ∨
      ∃ e, GetMatchingUnrealInstallation installs v = Except.error e) :
    (∃ e, (mainModel host options installs pluginResult execOk
      initialCwd).1 = Except.error e) ∧
    (mainModel host options installs pluginResult execOk initialCwd).2.1 =
      [] := by
  obtain ⟨e, he⟩ :=
    resolveVersions_fails installs options.VersionsToInstall v hv hfail
  unfold mainModel
  rw [he]
  exact ⟨⟨e, rfl⟩, rfl⟩

/-- C5 witness: with installed set `{4.25.0, 4.26.0, 4.26.2, 5.0.0}` and
requested versions `["4.26", "9"]`, the run aborts with no events. -/
theorem C5_fail_fast_witness :
    (∃ e, (mainModel Host.win32 failFastSettings exampleInstalls
      (Except.ok ("MyPlugin.uplugin", ⟨"MyPlugin"⟩)) (fun _ => true)
      "/work").1 = Except.error e) ∧
    (mainModel Host.win32 failFastSettings exampleInstalls
      (Except.ok ("MyPlugin.uplugin", ⟨"MyPlugin"⟩)) (fun _ => true)
      "/work").2.1 = [] :=
  C5_fail_fast Host.win32 failFastSettings exampleInstalls
    (Except.ok ("MyPlugin.uplugin", ⟨"MyPlugin"⟩)) (fun _ => true) "/work"
    "9" (by decide) (Or.inl rfl)

/-- C6: on a Windows host, `Win64` is allowed for every installation,
`Android` is allowed exactly when the installed version is lexicographically
at least `4.25.0`, the remaining platforms are always disallowed, and the
requested list `[Win64, Android]` filters (in request order) to `[Win64]`
for installation `4.24.0` and to `[Win64, Android]` for `4.25.0`. -/
theorem C6_windows_platform_gating :
    (∀ install : UnrealInstallation,
      IsPlatformSupported Host.win32 install UnrealPlatform.Win64 = true) ∧
    (∀ install : UnrealInstallation,
      IsPlatformSupported Host.win32 install UnrealPlatform.Android = true ↔
        SpecLexLe (4, 25, 0) (vtriple install.Version)) ∧
    (∀ (install : UnrealInstallation) (p : UnrealPlatform),
      (p = UnrealPlatform.IOS ∨ p = UnrealPlatform.Mac ∨
        p = UnrealPlatform.Linux) →
      IsPlatformSupported Host.win32 install p = false) ∧
    [UnrealPlatform.Win64, UnrealPlatform.Android].filter
      (fun p => IsPlatformSupported Host.win32 install424 p) =
      [UnrealPlatform.Win64] ∧
    [UnrealPlatform.Win64, UnrealPlatform.Android].filter
      (fun p => IsPlatformSupported Host.win32 install425 p) =
      [UnrealPlatform.Win64, UnrealPlatform.Android] := by
  refine ⟨fun install => rfl, ?_, ?_, rfl, rfl⟩
  · intro install
    obtain ⟨⟨ma, mi, pa⟩, rp, bp⟩ := install
    show IsGreaterThanOrEqual ⟨ma, mi, pa⟩
      ⟨JSVal.num 4, JSVal.num 25, JSVal.undef⟩ = true ↔ _
    simp only [IsGreaterThanOrEqual, jsEq, jsLt, SpecLexLe, vtriple,
      decide_eq_true_eq, beq_iff_eq]
    split_ifs <;> simp_all <;> omega
  · intro install p hp
    rcases hp with rfl | rfl | rfl <;> rfl

/-- C6 witness: the gating facts applied at the concrete installations
`4.24.0` and `4.25.0`. -/
theorem C6_windows_platform_gating_witness :
    IsPlatformSupported Host.win32 install424 UnrealPlatform.Mac = false ∧
    IsPlatformSupported Host.win32 install425 UnrealPlatform.Android = true :=
  ⟨C6_windows_platform_gating.2.2.1 install424 UnrealPlatform.Mac
    (Or.inr (Or.inl rfl)),
   (C6_windows_platform_gating.2.1 install425).mpr (by decide)⟩

/-- C8: for every input that splits into one to three tokens each parseable
as a non-negative integer, `ParseVersionNumber` succeeds and assigns the
tokens left-to-right to major, minor, patch, with only trailing components
absent. -/
theorem C8_parse_left_to_right (version : String) (ts : List (List Char))
    (hsplit : splitOnDot (jsTrim version.toList) = ts)
    (hnum : ∀ t ∈ ts, parsesAsNonNegInt t = true) :
    (ts.length = 1 → ParseVersionNumber version =
      Except.ok ⟨jsParseInt (ts.headD []), JSVal.undef, JSVal.undef⟩) ∧
    (ts.length = 2 → ParseVersionNumber version =
      Except.ok ⟨jsParseInt (ts.headD []), jsParseInt (ts.getD 1 []),
        JSVal.undef⟩) ∧
    (ts.length = 3 → ParseVersionNumber version =
      Except.ok ⟨jsParseInt (ts.headD []), jsParseInt (ts.getD 1 []),
        jsParseInt (ts.getD 2 [])⟩) := by
  have hs2 : splitOnDot (jsTrim version.data) = ts := hsplit
  refine ⟨?_, ?_, ?_⟩ <;> intro hlen
  · obtain ⟨t1, rfl⟩ := List.length_eq_one.mp hlen
    obtain ⟨k1, hk1⟩ := parsesAsNonNegInt_spec t1 (hnum t1 (by simp))
    simp [ParseVersionNumber, hsplit, hs2, hk1, jsPop, jsEq]
  · obtain ⟨t1, t2, rfl⟩ := List.length_eq_two.mp hlen
    obtain ⟨k1, hk1⟩ := parsesAsNonNegInt_spec t1 (hnum t1 (by simp))
    obtain ⟨k2, hk2⟩ := parsesAsNonNegInt_spec t2 (hnum t2 (by simp))
    simp [ParseVersionNumber, hsplit, hs2, hk1, hk2, jsPop, jsEq]
  · obtain ⟨t1, t2, t3, rfl⟩ := List.length_eq_three.mp hlen
    obtain ⟨k1, hk1⟩ := parsesAsNonNegInt_spec t1 (hnum t1 (by simp))
    obtain ⟨k2, hk2⟩ := parsesAsNonNegInt_spec t2 (hnum t2 (by simp))
    obtain ⟨k3, hk3⟩ := parsesAsNonNegInt_spec t3 (hnum t3 (by simp))
    simp [ParseVersionNumber, hsplit, hs2, hk1, hk2, hk3, jsPop, jsEq]

/-- C8 witness: `"4"`, `"4.26"` and `"4.26.1"` parse to
`{major 4}`, `{major 4, minor 26}` and `{major 4, minor 26, patch 1}`. -/
theorem C8_parse_left_to_right_witness :
    ParseVersionNumber "4" =
      Except.ok ⟨JSVal.num 4, JSVal.undef, JSVal.undef⟩ ∧
    ParseVersionNumber "4.26" =
      Except.ok ⟨JSVal.num 4, JSVal.num 26, JSVal.undef⟩ ∧
    ParseVersionNumber "4.26.1" =
      Except.ok ⟨JSVal.num 4, JSVal.num 26, JSVal.num 1⟩ :=
  ⟨(C8_parse_left_to_right "4" [['4']] rfl (by decide)).1 rfl,
   (C8_parse_left_to_right "4.26" [['4'], ['2', '6']] rfl (by decide)).2.1 rfl,
   (C8_parse_left_to_right "4.26.1" [['4'], ['2', '6'], ['1']] rfl
     (by decide)).2.2 rfl⟩

/-- C9: `cleanDirectory` removes exactly the `Intermediate` subtree when
either cleanup flag is set and exactly the `Binaries` subtree when
`CleanBinaryFiles` is set; it is idempotent, and on a file system with no
such subtrees it is a no-op (removal of an absent path is never an error). -/
theorem C9_cleanup_policy :
    (∀ (fs : List String) (dir : String) (options : BuildSettings)
        (q : String),
      q ∈ cleanDirectory fs dir options ↔
        q ∈ fs ∧
        ((options.CleanIntermediateFiles || options.CleanBinaryFiles) = true →
          isUnder (pathJoin dir "Intermediate") q = false) ∧
        (options.CleanBinaryFiles = true →
          isUnder (pathJoin dir "Binaries") q = false)) ∧
    (∀ (fs : List String) (dir : String) (options : BuildSettings),
      cleanDirectory (cleanDirectory fs dir options) dir options =
        cleanDirectory fs dir options) ∧
    (∀ (fs : List String) (dir : String) (options : BuildSettings),
      (∀ q ∈ fs, isUnder (pathJoin dir "Intermediate") q = false ∧
        isUnder (pathJoin dir "Binaries") q = false) →
      cleanDirectory fs dir options = fs) := by
  refine ⟨?_, ?_, ?_⟩
  · intro fs dir options q
    obtain ⟨up, vi, pp, op, pl, cb, ci, zp⟩ := options
    cases cb <;> cases ci <;>
      simp [cleanDirectory, rimrafModel, List.mem_filter] <;> tauto
  · intro fs dir options
    obtain ⟨up, vi, pp, op, pl, cb, ci, zp⟩ := options
    cases cb <;> cases ci <;>
      simp [cleanDirectory, rimrafModel, List.filter_filter] <;>
      (try apply List.filter_congr) <;> intro a _ <;>
      cases isUnder (pathJoin dir "Intermediate") a <;>
      cases isUnder (pathJoin dir "Binaries") a <;> rfl
  · intro fs dir options h
    obtain ⟨up, vi, pp, op, pl, cb, ci, zp⟩ := options
    have hI : List.filter
        (fun q => !isUnder (pathJoin dir "Intermediate") q) fs = fs :=
      List.filter_eq_self.mpr (fun a ha => by simp [(h a ha).1])
    have hB : List.filter
        (fun q => !isUnder (pathJoin dir "Binaries") q) fs = fs :=
      List.filter_eq_self.mpr (fun a ha => by simp [(h a ha).2])
    cases cb <;> cases ci <;>
      simp [cleanDirectory, rimrafModel, hI, hB]

/-- C9 witness: cleanup on a file system that lacks the `Intermediate` and
`Binaries` subtrees leaves it untouched. -/
theorem C9_cleanup_policy_witness :
    cleanDirectory ["Packages/Foo_5_0_1/Readme.txt"] "Packages/Foo_5_0_1"
      failFastSettings = ["Packages/Foo_5_0_1/Readme.txt"] :=
  C9_cleanup_policy.2.2 ["Packages/Foo_5_0_1/Readme.txt"] "Packages/Foo_5_0_1"
    failFastSettings (by decide)

/-- C10: `GetMatchingUnrealInstallation` never modifies its input array:
with array identity made explicit, the only in-place mutations (`sort` and
`pop`) act on the freshly allocated `filter` result, so the input array's
contents are unchanged on every path. -/
theorem allocArray_fst (σ : ArrayStore) (l : List UnrealInstallation) :
    (allocArray σ l).1 = σ.next := rfl

theorem arrays_allocArray_ne (σ : ArrayStore) (l : List UnrealInstallation)
    (i : Nat) (h : i ≠ σ.next) :
    (allocArray σ l).2.arrays i = σ.arrays i := by
  simp [allocArray, h]

theorem arrays_writeArray_ne (σ : ArrayStore) (id : Nat)
    (l : List UnrealInstallation) (i : Nat) (h : i ≠ id) :
    (writeArray σ id l).arrays i = σ.arrays i := by
  simp [writeArray, h]

theorem C10_input_array_unmodified (σ : ArrayStore) (installsRef : Nat)
    (version : String) (h : installsRef < σ.next) :
    ((GetMatchingUnrealInstallationRef σ installsRef version).2).arrays
      installsRef = σ.arrays installsRef := by
  have hne : installsRef ≠ σ.next := Nat.ne_of_lt h
  unfold GetMatchingUnrealInstallationRef
  cases hp : ParseVersionNumber version with
  | error e => rfl
  | ok spec =>
    dsimp only
    split
    · exact arrays_allocArray_ne σ _ installsRef hne
    · rw [arrays_writeArray_ne _ _ _ _ (by rw [allocArray_fst]; exact hne),
        arrays_writeArray_ne _ _ _ _ (by rw [allocArray_fst]; exact hne),
        arrays_allocArray_ne σ _ installsRef hne]

/-- C10 witness: resolving `"4.26"` against the stored example list leaves
the input array unchanged. -/
theorem C10_input_array_unmodified_witness :
    ((GetMatchingUnrealInstallationRef exampleStore 0 "4.26").2).arrays 0 =
      exampleStore.arrays 0 :=
  C10_input_array_unmodified exampleStore 0 "4.26" (by decide)
